import Mathlib

/-!
Verification of the configuration core of the csaf_distribution aggregator
(cmd/csaf_aggregator/config.go): data model, HTTP client factory with TLS and
rate layering, provider validation, defaults resolution, and the memoized
crypto-key loader.  Go machine integers are modelled as `Int`, `float64` rate
values as `Rat` (only selection, never arithmetic, is performed on them),
pointers-to-value (`*float64`, `*bool`) as `Option`, and Go `error` values as
`Option String` / `Except String`.
-/

namespace CsafAggregator

/-- Constant `defaultWorkers = 10` from config.go. -/
def defaultWorkers : Int := 10

/-- Constant `defaultFolder = "/var/www"` from config.go. -/
def defaultFolder : String := "/var/www"

/-- Constant `defaultWeb = "/var/www/html"` from config.go. -/
def defaultWeb : String := "/var/www/html"

/-- Constant `defaultDomain = "https://example.com"` from config.go. -/
def defaultDomain : String := "https://example.com"

/-- One provider entry of the TOML configuration (`type provider`):
`Name`, `Domain`, optional `Rate` (`*float64`) and optional `Insecure`
(`*bool`). -/
structure Provider where
  name : String
  domain : String
  rate : Option Rat
  insecure : Option Bool
deriving DecidableEq, Repr

/-- The aggregator metadata block (`csaf.AggregatorInfo`).  Its `Validate`
method lives in the external `csaf` package and is treated as an opaque
delegated check; we model it by its observable result: `none` means valid,
`some e` means validation fails with error `e`. -/
structure AggregatorInfo where
  validateResult : Option String
deriving DecidableEq, Repr

/-- Opaque handle standing for a parsed `*crypto.Key`. -/
abbrev KeyHandle := Nat

/-- The aggregator configuration (`type config`), including the memoized
crypto-key cache fields `key` / `keyErr` (the mutex is modelled by the
sequential state passing of `cryptoKey`, which also counts lock
acquisitions). -/
structure Config where
  workers : Int
  folder : String
  web : String
  domain : String
  rate : Option Rat
  insecure : Option Bool
  aggregator : AggregatorInfo
  providers : List Provider
  key : String
  passphrase : Option String
  keyHandle : Option KeyHandle
  keyErr : Option String
deriving DecidableEq, Repr

/-- The HTTP client built by `httpClient`; the flag records whether a
transport with `TLSClientConfig.InsecureSkipVerify = true` was installed. -/
structure HTTPClient where
  insecureSkipVerify : Bool
deriving DecidableEq, Repr

/-- The result of `config.httpClient`: either the plain `http.Client` or a
`limitingClient` wrapping it with a `rate.NewLimiter(rate, burst)`. -/
inductive Client where
  | plain (c : HTTPClient)
  | limiting (c : HTTPClient) (rate : Rat) (burst : Nat)
deriving DecidableEq, Repr

/-- Whether the produced client skips TLS certificate verification. -/
def Client.skipsVerify : Client → Bool
  | .plain c => c.insecureSkipVerify
  | .limiting c _ _ => c.insecureSkipVerify

/-- Whether the produced client is the plain, unwrapped client. -/
def Client.isPlain : Client → Bool
  | .plain _ => true
  | .limiting _ _ _ => false

/-- The effective rate of the client (`none` for an unwrapped plain client). -/
def Client.effRate : Client → Option Rat
  | .plain _ => none
  | .limiting _ r _ => some r

/-- The burst capacity of the client's token bucket (`none` when no limiter
is attached). -/
def Client.burstOf : Client → Option Nat
  | .plain _ => none
  | .limiting _ _ b => some b

/-- Function `config.httpClient` from config.go: build a plain client, install an
insecure transport when the provider override or the global flag is non-nil
and true, return it unwrapped when neither rate is set, and otherwise wrap it
in a limiter with the global rate overridden by the provider rate and
burst 1. -/
def httpClient (c : Config) (p : Provider) : Client :=
  let cl : HTTPClient :=
    { insecureSkipVerify := p.insecure.getD false || c.insecure.getD false }
  if p.rate.isNone && c.rate.isNone then
    Client.plain cl
  else
    let r0 : Rat := 0
    let r1 : Rat := match c.rate with
      | some g => g
      | none => r0
    let r2 : Rat := match p.rate with
      | some q => q
      | none => r1
    Client.limiting cl r2 1

/-- Error message for a provider without a name. -/
def noNameMsg : String := "no name given for provider"

/-- Error message for a provider without a domain. -/
def noDomainMsg : String := "no domain given for provider"

/-- Error message for a duplicated provider name
(`provider '%s' is configured more than once`). -/
def dupMsg (name : String) : String :=
  "provider \x27" ++ name ++ "\x27 is configured more than once"

/-- Loop body of `config.checkProviders`: `already` is the set of names seen
so far (the Go `map[string]bool`). -/
def checkProvidersAux : List String → List Provider → Option String
  | _, [] => none
  | already, p :: ps =>
    if p.name = "" then some noNameMsg
    else if p.domain = "" then some noDomainMsg
    else if p.name ∈ already then some (dupMsg p.name)
    else checkProvidersAux (p.name :: already) ps

/-- Function `config.checkProviders` from config.go. -/
def checkProviders (c : Config) : Option String :=
  checkProvidersAux [] c.providers

/-- Worker-count resolution inside `setDefaults` (helper for statements):
non-positive operator values become `min(numCPU, defaultWorkers)`, then the
result is clamped down to the number of providers. -/
def resolveWorkers (numCPU w len : Int) : Int :=
  let w1 := if w ≤ 0 then (if numCPU > defaultWorkers then defaultWorkers else numCPU) else w
  if w1 > len then len else w1

/-- Function `config.setDefaults` from config.go, with the reported hardware
parallelism `runtime.NumCPU()` passed in as `numCPU`. -/
def setDefaults (numCPU : Int) (c : Config) : Config :=
  let c := if c.folder = "" then { c with folder := defaultFolder } else c
  let c := if c.web = "" then { c with web := defaultWeb } else c
  let c := if c.domain = "" then { c with domain := defaultDomain } else c
  let c := if c.workers ≤ 0 then
      { c with workers := if numCPU > defaultWorkers then defaultWorkers else numCPU }
    else c
  if c.workers > (c.providers.length : Int) then
    { c with workers := (c.providers.length : Int) }
  else c

/-- Function `config.check` from config.go: providers non-empty, then aggregator
metadata validation, then per-provider checks; first failure wins. -/
def check (c : Config) : Option String :=
  if c.providers.length = 0 then some "no providers given in configuration"
  else
    match c.aggregator.validateResult with
    | some e => some e
    | none => checkProviders c

/-- Function `loadConfig` from config.go, after the external `toml.DecodeFile` step:
given the decoded configuration, apply defaults, validate, and return either
the configuration or the first error with no configuration. -/
def loadConfig (numCPU : Int) (decoded : Config) : Except String Config :=
  let cfg := setDefaults numCPU decoded
  match check cfg with
  | some e => Except.error e
  | none => Except.ok cfg

/-- Environment of one `cryptoKey` call: the outcome of `os.Open(c.Key)`
and the pair returned by `crypto.NewKeyFromArmoredReader` (both external
capabilities). -/
structure KeyEnv where
  openResult : Except String Unit
  parseResult : Option KeyHandle × Option String
deriving Repr

/-- Observable outcome of one `config.cryptoKey` call: the returned pair,
the configuration state afterwards, the number of file-open attempts made by
this call, and the number of mutex acquisitions made by this call. -/
structure KeyCallResult where
  key : Option KeyHandle
  err : Option String
  state : Config
  opens : Nat
  locks : Nat
deriving DecidableEq, Repr

/-- Function `config.cryptoKey` from config.go: empty key path returns `(nil, nil)`
before taking the lock; under the lock a previously recorded handle or error
is returned unchanged; otherwise the file is opened and the parse outcome
(or the open error) is recorded and returned. -/
def cryptoKey (env : KeyEnv) (c : Config) : KeyCallResult :=
  if c.key = "" then
    ⟨none, none, c, 0, 0⟩
  else if c.keyHandle.isSome || c.keyErr.isSome then
    ⟨c.keyHandle, c.keyErr, c, 0, 1⟩
  else
    match env.openResult with
    | Except.error e => ⟨none, some e, { c with keyErr := some e }, 1, 1⟩
    | Except.ok _ =>
      ⟨env.parseResult.1, env.parseResult.2,
        { c with keyHandle := env.parseResult.1, keyErr := env.parseResult.2 }, 1, 1⟩

/-! Concrete configurations and environments used in example clauses and
witnesses. -/

/-- Example provider `a`. -/
def pA : Provider := { name := "a", domain := "a.example", rate := none, insecure := none }

/-- Example provider `b`. -/
def pB : Provider := { name := "b", domain := "b.example", rate := none, insecure := none }

/-- Example provider `c`. -/
def pC : Provider := { name := "c", domain := "c.example", rate := none, insecure := none }

/-- A second provider reusing the name `a` with a different domain. -/
def pDupA : Provider := { name := "a", domain := "dup.example", rate := none, insecure := none }

/-- Provider `a` with a rate override of 5. -/
def pRate5 : Provider := { pA with rate := some 5 }

/-- Baseline configuration: everything empty or unset, valid metadata. -/
def cfgBase : Config :=
  { workers := 0, folder := "", web := "", domain := "", rate := none,
    insecure := none, aggregator := { validateResult := none }, providers := [],
    key := "", passphrase := none, keyHandle := none, keyErr := none }

/-- Two providers, no explicit worker count. -/
def cfgTwoProv : Config := { cfgBase with providers := [pA, pB] }

/-- Fifty providers, no explicit worker count. -/
def cfgFiftyProv : Config := { cfgBase with providers := List.replicate 50 pA }

/-- Three providers and explicit worker count 100. -/
def cfgThreeProv : Config := { cfgBase with workers := 100, providers := [pA, pB, pC] }

/-- A provider list whose second entry duplicates the first entry's name. -/
def cfgDup : Config := { cfgBase with providers := [pA, pDupA] }

/-- One valid provider. -/
def cfgOneProv : Config := { cfgBase with providers := [pA] }

/-- Empty provider list and invalid aggregator metadata. -/
def cfgBadAgg : Config :=
  { cfgBase with aggregator := { validateResult := some "invalid aggregator" } }

/-- Global rate 1. -/
def cfgRate1 : Config := { cfgBase with rate := some 1 }

/-- Global rate 2. -/
def cfgRate2 : Config := { cfgBase with rate := some 2 }

/-- Configuration with a key path configured and an empty cache. -/
def cfgKeyed : Config := { cfgBase with key := "key.asc" }

/-- Environment where the key file opens and parses to handle 7. -/
def envParseOk : KeyEnv := { openResult := Except.ok (), parseResult := (some 7, none) }

/-- A different environment, used to show memoization ignores it. -/
def envSecond : KeyEnv :=
  { openResult := Except.error "second open", parseResult := (some 99, some "zz") }

/-! Helper lemmas shared between the claim theorems. -/

/-- Field-wise characterization of `setDefaults`. -/
theorem setDefaults_eq (n : Int) (c : Config) :
    setDefaults n c =
      { c with
        folder := if c.folder = "" then defaultFolder else c.folder
        web := if c.web = "" then defaultWeb else c.web
        domain := if c.domain = "" then defaultDomain else c.domain
        workers := resolveWorkers n c.workers (c.providers.length : Int) } := by
  obtain ⟨w, f, wb, d, r, i, a, ps, k, pp, kh, ke⟩ := c
  simp only [setDefaults, resolveWorkers]
  split_ifs <;> simp_all

/-- Lemma: `setDefaults` leaves the provider list unchanged. -/
theorem setDefaults_providers_eq (n : Int) (c : Config) :
    (setDefaults n c).providers = c.providers := by
  rw [setDefaults_eq]

/-- The worker count after `setDefaults`. -/
theorem setDefaults_workers_eq (n : Int) (c : Config) :
    (setDefaults n c).workers = resolveWorkers n c.workers (c.providers.length : Int) := by
  rw [setDefaults_eq]

/-- Lemma: `resolveWorkers` expressed with `min`. -/
theorem resolveWorkers_min (n w len : Int) :
    resolveWorkers n w len = min (if w ≤ 0 then min n defaultWorkers else w) len := by
  simp only [resolveWorkers, defaultWorkers, min_def]
  split_ifs <;> omega

/-- Extensionality for `Config`. -/
theorem Config.ext_fields {a b : Config}
    (h1 : a.workers = b.workers) (h2 : a.folder = b.folder) (h3 : a.web = b.web)
    (h4 : a.domain = b.domain) (h5 : a.rate = b.rate) (h6 : a.insecure = b.insecure)
    (h7 : a.aggregator = b.aggregator) (h8 : a.providers = b.providers)
    (h9 : a.key = b.key) (h10 : a.passphrase = b.passphrase)
    (h11 : a.keyHandle = b.keyHandle) (h12 : a.keyErr = b.keyErr) : a = b := by
  cases a; cases b; simp_all

/-- An optional boolean defaulted to `false` is `true` exactly when it is
explicitly `some true`. -/
theorem getD_false_eq_true_iff (o : Option Bool) :
    (o.getD false = true) ↔ o = some true := by
  rcases o with _ | b
  · simp
  · cases b <;> simp

/-- The folder after `setDefaults`. -/
theorem setDefaults_folder_eq (n : Int) (c : Config) :
    (setDefaults n c).folder = if c.folder = "" then defaultFolder else c.folder := by
  rw [setDefaults_eq]

/-- The web root after `setDefaults`. -/
theorem setDefaults_web_eq (n : Int) (c : Config) :
    (setDefaults n c).web = if c.web = "" then defaultWeb else c.web := by
  rw [setDefaults_eq]

/-- The domain after `setDefaults`. -/
theorem setDefaults_domain_eq (n : Int) (c : Config) :
    (setDefaults n c).domain = if c.domain = "" then defaultDomain else c.domain := by
  rw [setDefaults_eq]

/-- Lemma: `setDefaults` leaves all fields other than folder, web, domain and
workers unchanged (providers are covered by `setDefaults_providers_eq`). -/
theorem setDefaults_rest (n : Int) (c : Config) :
    (setDefaults n c).rate = c.rate ∧ (setDefaults n c).insecure = c.insecure ∧
    (setDefaults n c).aggregator = c.aggregator ∧ (setDefaults n c).key = c.key ∧
    (setDefaults n c).passphrase = c.passphrase ∧
    (setDefaults n c).keyHandle = c.keyHandle ∧ (setDefaults n c).keyErr = c.keyErr := by
  rw [setDefaults_eq]
  exact ⟨rfl, rfl, rfl, rfl, rfl, rfl, rfl⟩

/-! Claim theorems. -/

/-- C1: `httpClient` skips TLS certificate verification exactly when the
provider's insecure flag is present and true, or the global insecure flag is
present and true; in particular an explicit provider-level `false` still
yields relaxed TLS under a global `true`, and with both flags absent the
client verifies certificates. -/
theorem httpClient_tls_policy (c : Config) (p : Provider) :
    (httpClient c p).skipsVerify = true ↔
      p.insecure = some true ∨ c.insecure = some true := by
  have h : (httpClient c p).skipsVerify
      = (p.insecure.getD false || c.insecure.getD false) := by
    unfold httpClient
    split <;> rfl
  rw [h, Bool.or_eq_true, getD_false_eq_true_iff, getD_false_eq_true_iff]

/-- C2: `setDefaults` resolves the worker count to
`min (if operator value non-positive then min(numCPU, 10) else value, number
of providers)`; with at least one CPU an empty provider list drives the
count to 0; and the three concrete examples of the claim hold. -/
theorem setDefaults_worker_resolution (n : Int) (c : Config) :
    ((setDefaults n c).workers =
      min (if c.workers ≤ 0 then min n defaultWorkers else c.workers)
        (c.providers.length : Int)) ∧
    (1 ≤ n → c.providers = [] → (setDefaults n c).workers = 0) ∧
    (setDefaults 4 cfgTwoProv).workers = 2 ∧
    (setDefaults 20 cfgFiftyProv).workers = 10 ∧
    (setDefaults 8 cfgThreeProv).workers = 3 := by
  refine ⟨?_, ?_, by decide, by decide, by decide⟩
  · rw [setDefaults_workers_eq, resolveWorkers_min]
  · intro hn hp
    rw [setDefaults_workers_eq, hp]
    simp only [resolveWorkers, defaultWorkers, List.length_nil, Nat.cast_zero]
    split_ifs <;> omega

/-- Witness for C2 at numCPU 7 and the empty provider list. -/
theorem setDefaults_worker_resolution_witness :
    (setDefaults 7 cfgBase).workers = 0 :=
  (setDefaults_worker_resolution 7 cfgBase).2.1 (by decide) rfl

/-- C6: `httpClient` returns the plain client unwrapped exactly when neither
rate is set; otherwise it wraps in a limiter with burst 1 whose rate is the
provider rate when present, else the global rate; with the claim's concrete
instances (provider 5 over global 1 gives 5; absent provider over global 2
gives 2). -/
theorem httpClient_rate_policy (c : Config) (p : Provider) :
    ((httpClient c p).isPlain = (p.rate.isNone && c.rate.isNone)) ∧
    ((httpClient c p).effRate = if p.rate.isSome then p.rate else c.rate) ∧
    ((httpClient c p).burstOf = if p.rate.isSome || c.rate.isSome then some 1 else none) ∧
    ((httpClient cfgRate1 pRate5).effRate = some 5) ∧
    ((httpClient cfgRate2 pA).effRate = some 2) := by
  refine ⟨?_, ?_, ?_, by decide, by decide⟩ <;>
    rcases hp : p.rate with _ | pr <;> rcases hc : c.rate with _ | g <;>
      simp [httpClient, hp, hc, Client.isPlain, Client.effRate, Client.burstOf]

/-- C8: with an empty key path, `cryptoKey` returns `(nil, nil)`, acquires no
lock, opens no file, and leaves the cache state unchanged. -/
theorem cryptoKey_empty_path (env : KeyEnv) (c : Config) (h : c.key = "") :
    cryptoKey env c = ⟨none, none, c, 0, 0⟩ := by
  unfold cryptoKey
  rw [if_pos h]

/-- Witness for C8 on the baseline configuration. -/
theorem cryptoKey_empty_path_witness :
    cryptoKey envParseOk cfgBase = ⟨none, none, cfgBase, 0, 0⟩ :=
  cryptoKey_empty_path envParseOk cfgBase rfl

/-- C9: `setDefaults` is idempotent for any fixed reported hardware
parallelism (which is at least 1). -/
theorem setDefaults_idempotent (n : Int) (c : Config) (hn : 1 ≤ n) :
    setDefaults n (setDefaults n c) = setDefaults n c := by
  have hdf : defaultFolder ≠ "" := by decide
  have hdw : defaultWeb ≠ "" := by decide
  have hdd : defaultDomain ≠ "" := by decide
  refine Config.ext_fields ?_ ?_ ?_ ?_ ((setDefaults_rest n _).1)
    ((setDefaults_rest n _).2.1) ((setDefaults_rest n _).2.2.1)
    (setDefaults_providers_eq n _) ((setDefaults_rest n _).2.2.2.1)
    ((setDefaults_rest n _).2.2.2.2.1) ((setDefaults_rest n _).2.2.2.2.2.1)
    ((setDefaults_rest n _).2.2.2.2.2.2)
  · rw [setDefaults_workers_eq n (setDefaults n c), setDefaults_providers_eq,
      setDefaults_workers_eq n c]
    simp only [resolveWorkers, defaultWorkers]
    split_ifs <;> omega
  · rw [setDefaults_folder_eq n (setDefaults n c), setDefaults_folder_eq n c]
    by_cases h : c.folder = "" <;> simp [h, hdf]
  · rw [setDefaults_web_eq n (setDefaults n c), setDefaults_web_eq n c]
    by_cases h : c.web = "" <;> simp [h, hdw]
  · rw [setDefaults_domain_eq n (setDefaults n c), setDefaults_domain_eq n c]
    by_cases h : c.domain = "" <;> simp [h, hdd]

/-- Witness for C9 on the baseline configuration (empty provider list) at
numCPU 4. -/
theorem setDefaults_idempotent_witness :
    setDefaults 4 (setDefaults 4 cfgBase) = setDefaults 4 cfgBase :=
  setDefaults_idempotent 4 cfgBase (by decide)

/-- C10: `setDefaults` modifies at most the folder, web, domain and
worker-count fields: providers, global rate, global insecure flag,
aggregator metadata, key path, passphrase, and the key cache state are all
unchanged. -/
theorem setDefaults_frame (n : Int) (c : Config) :
    (setDefaults n c).providers = c.providers ∧
    (setDefaults n c).rate = c.rate ∧
    (setDefaults n c).insecure = c.insecure ∧
    (setDefaults n c).aggregator = c.aggregator ∧
    (setDefaults n c).key = c.key ∧
    (setDefaults n c).passphrase = c.passphrase ∧
    (setDefaults n c).keyHandle = c.keyHandle ∧
    (setDefaults n c).keyErr = c.keyErr := by
  rw [setDefaults_eq]
  exact ⟨rfl, rfl, rfl, rfl, rfl, rfl, rfl, rfl⟩

/-- Processing a prefix of providers that are all well-formed and whose names
are fresh only extends the seen-names accumulator. -/
theorem checkProvidersAux_append (pre : List Provider) (already : List String)
    (hok : ∀ q ∈ pre, q.name ≠ "" ∧ q.domain ≠ "" ∧ q.name ∉ already)
    (hnd : (pre.map Provider.name).Nodup) (l : List Provider) :
    checkProvidersAux already (pre ++ l) =
      checkProvidersAux ((pre.map Provider.name).reverse ++ already) l := by
  induction pre generalizing already with
  | nil => simp
  | cons q pre ih =>
    obtain ⟨hn, hd, hm⟩ := hok q (List.mem_cons_self q pre)
    have hnd' : (pre.map Provider.name).Nodup := by
      simp only [List.map_cons, List.nodup_cons] at hnd
      exact hnd.2
    have hqn : q.name ∉ pre.map Provider.name := by
      simp only [List.map_cons, List.nodup_cons] at hnd
      exact hnd.1
    have hok' : ∀ x ∈ pre,
        x.name ≠ "" ∧ x.domain ≠ "" ∧ x.name ∉ (q.name :: already) := by
      intro x hx
      obtain ⟨h1, h2, h3⟩ := hok x (List.mem_cons_of_mem q hx)
      refine ⟨h1, h2, ?_⟩
      simp only [List.mem_cons]
      rintro (hcase | hcase)
      · exact hqn (hcase ▸ List.mem_map_of_mem Provider.name hx)
      · exact h3 hcase
    simp only [List.cons_append, checkProvidersAux]
    rw [if_neg hn, if_neg hd, if_neg hm]
    simp only [List.append_eq]
    rw [ih (q.name :: already) hok' hnd']
    simp [List.append_assoc]

/-- C4: `checkProviders` iterates in declaration order and reports the first
failure: within each provider the name check precedes the domain check, and a
name already seen earlier (the second occurrence of a duplicate) is reported
with the duplicate message. -/
theorem checkProviders_first_failure (pre : List Provider) (p : Provider)
    (rest : List Provider) (c : Config)
    (hok : ∀ q ∈ pre, q.name ≠ "" ∧ q.domain ≠ "")
    (hnd : (pre.map Provider.name).Nodup)
    (hc : c.providers = pre ++ p :: rest) :
    (p.name = "" → checkProviders c = some noNameMsg) ∧
    (p.name ≠ "" → p.domain = "" → checkProviders c = some noDomainMsg) ∧
    (p.name ≠ "" → p.domain ≠ "" → p.name ∈ pre.map Provider.name →
      checkProviders c = some (dupMsg p.name)) := by
  have key : checkProvidersAux [] (pre ++ p :: rest) =
      checkProvidersAux ((pre.map Provider.name).reverse ++ []) (p :: rest) :=
    checkProvidersAux_append pre []
      (fun q hq => ⟨(hok q hq).1, (hok q hq).2, by simp⟩) hnd (p :: rest)
  unfold checkProviders
  rw [hc, key]
  refine ⟨fun h => ?_, fun h1 h2 => ?_, fun h1 h2 h3 => ?_⟩
  · simp only [checkProvidersAux]
    rw [if_pos h]
  · simp only [checkProvidersAux]
    rw [if_neg h1, if_pos h2]
  · have hmem : p.name ∈ (pre.map Provider.name).reverse ++ [] := by
      simpa using h3
    simp only [checkProvidersAux]
    rw [if_neg h1, if_neg h2, if_pos hmem]

/-- Witness for C4: the second occurrence of name `a` is reported. -/
theorem checkProviders_first_failure_witness :
    checkProviders cfgDup = some (dupMsg "a") := by
  have h := checkProviders_first_failure [pA] pDupA [] cfgDup
    (by decide) (by decide) rfl
  exact h.2.2 (by decide) (by decide) (by decide)

/-- C3: with a non-empty key path and an empty cache, the first `cryptoKey`
call makes exactly one file-open attempt; and once that call has recorded an
outcome (a handle or an error), any later call under any environment returns
the identical recorded outcome, leaves the state unchanged, and makes no new
file-open attempt. -/
theorem cryptoKey_memoized (env : KeyEnv) (c : Config)
    (hk : c.key ≠ "") (hh : c.keyHandle = none) (he : c.keyErr = none) :
    (cryptoKey env c).opens = 1 ∧
    (((cryptoKey env c).state.keyHandle.isSome ∨
        (cryptoKey env c).state.keyErr.isSome) →
      ∀ env2 : KeyEnv,
        cryptoKey env2 (cryptoKey env c).state =
          ⟨(cryptoKey env c).key, (cryptoKey env c).err,
            (cryptoKey env c).state, 0, 1⟩) := by
  rcases henv : env.openResult with e | u
  · have hcall : cryptoKey env c = ⟨none, some e, { c with keyErr := some e }, 1, 1⟩ := by
      simp [cryptoKey, hk, hh, he, henv]
    rw [hcall]
    refine ⟨rfl, fun _ env2 => ?_⟩
    simp [cryptoKey, hk, hh]
  · rcases hpr : env.parseResult with ⟨ok, oe⟩
    have hcall : cryptoKey env c =
        ⟨ok, oe, { c with keyHandle := ok, keyErr := oe }, 1, 1⟩ := by
      simp [cryptoKey, hk, hh, he, henv, hpr]
    rw [hcall]
    refine ⟨rfl, fun hrec env2 => ?_⟩
    have hrec' : (ok.isSome || oe.isSome) = true := by
      rcases hrec with h | h <;> simp_all
    simp [cryptoKey, hk, hrec']

/-- Witness for C3: a successful parse to handle 7 is memoized; the second
call, under a hostile environment, returns the same handle with no new open. -/
theorem cryptoKey_memoized_witness :
    (cryptoKey envParseOk cfgKeyed).opens = 1 ∧
    cryptoKey envSecond (cryptoKey envParseOk cfgKeyed).state =
      ⟨(cryptoKey envParseOk cfgKeyed).key, (cryptoKey envParseOk cfgKeyed).err,
        (cryptoKey envParseOk cfgKeyed).state, 0, 1⟩ := by
  have h := cryptoKey_memoized envParseOk cfgKeyed (by decide) rfl rfl
  exact ⟨h.1, h.2 (by decide) envSecond⟩

/-- C5 counterexample: for the concrete configuration with an empty provider
list, `loadConfig` fails, but with the message
`no providers given in configuration`, not `no providers given` as the claim
states. -/
theorem loadConfig_no_providers_cex :
    loadConfig 4 cfgBadAgg = Except.error "no providers given in configuration" ∧
    "no providers given in configuration" ≠ "no providers given" := by
  exact ⟨rfl, by decide⟩

/-- C5 (amended): with an empty provider list `loadConfig` fails with the
message `no providers given in configuration` (even when metadata is invalid,
so the emptiness check precedes the metadata and provider checks), and on any
validation failure the caller receives only the first error, never a
configuration. -/
theorem loadConfig_no_providers (n : Int) (c : Config) :
    (c.providers = [] →
      loadConfig n c = Except.error "no providers given in configuration") ∧
    (∀ e, check (setDefaults n c) = some e → loadConfig n c = Except.error e) := by
  constructor
  · intro hp
    have hchk : check (setDefaults n c) =
        some "no providers given in configuration" := by
      unfold check
      rw [setDefaults_providers_eq, hp]
      rfl
    simp only [loadConfig]
    rw [hchk]
  · intro e he
    simp only [loadConfig]
    rw [he]

/-- Witness for C5 (amended) at the concrete empty-provider configuration. -/
theorem loadConfig_no_providers_witness :
    loadConfig 4 cfgBadAgg = Except.error "no providers given in configuration" :=
  (loadConfig_no_providers 4 cfgBadAgg).1 rfl

/-- C7: every configuration returned successfully by `loadConfig` has a
worker count in `[1, number of providers]`. -/
theorem loadConfig_worker_bounds (n : Int) (c c' : Config) (hn : 1 ≤ n)
    (h : loadConfig n c = Except.ok c') :
    1 ≤ c'.workers ∧ c'.workers ≤ (c'.providers.length : Int) := by
  simp only [loadConfig] at h
  cases hchk : check (setDefaults n c) with
  | some e =>
    rw [hchk] at h
    simp at h
  | none =>
    rw [hchk] at h
    simp only [Except.ok.injEq] at h
    subst h
    have hlen : c.providers.length ≠ 0 := by
      intro h0
      unfold check at hchk
      rw [setDefaults_providers_eq, if_pos h0] at hchk
      exact Option.noConfusion hchk
    rw [setDefaults_workers_eq, setDefaults_providers_eq]
    simp only [resolveWorkers, defaultWorkers]
    refine ⟨?_, ?_⟩ <;> split_ifs <;> omega

/-- Witness for C7 on a one-provider configuration at numCPU 4. -/
theorem loadConfig_worker_bounds_witness :
    1 ≤ (setDefaults 4 cfgOneProv).workers ∧
      (setDefaults 4 cfgOneProv).workers ≤
        ((setDefaults 4 cfgOneProv).providers.length : Int) :=
  loadConfig_worker_bounds 4 cfgOneProv (setDefaults 4 cfgOneProv)
    (by decide) rfl

end CsafAggregator
